import Mathlib

/-!
Verification development for the pydrogen fold engine
(`src/pydrogen/pydrogen.py`).

The engine performs semantics-directed folds over Python abstract syntax
trees.  A user-defined interpretation supplies per-node-kind handlers; the
engine traverses the tree, wraps each child position in a dual-view
`Subtree` (raw child now, folded child lazily), adapts the argument count
to the handler's declared signature (`Pydrogen.attempt`), applies a
specific-before-generic fallback for resolved sub-operators, and threads
an optional context through statement sequences (`Pydrogen.interprets`).
Results of several interpretations of one callable accumulate in a
`Function` carrier keyed by interpretation class name.

The embedding below models the grammar fragment exercised by the claims
(modules, function definitions, return, assignment, pass, binary
operations with all thirteen resolved sub-operators, numeric literals and
identifier references), the dual-view subtree wrapper with its tuple
unwrapping, the arity-adaptive `attempt`, the dispatch of
`Pydrogen.interpret` / `Pydrogen.interprets`, the default handlers that
raise `SemanticError`, and the `Function` result carrier.  Python values
flowing through handlers are modelled by the closed universe `Val`;
raised exceptions are modelled by `Except` with the error type `Err`.
-/

namespace Pydrogen

/-- The thirteen resolved binary sub-operators of `ast.BinOp`
(pydrogen.py lines 252-264). -/
inductive Bop where
  | add | sub | mult | matmult | div | mod | pow
  | lshift | rshift | bitor | bitxor | bitand | floordiv
deriving DecidableEq, Repr

mutual

/-- The modelled fragment of the Python abstract syntax grammar that
`Pydrogen.interpret` dispatches on (pydrogen.py lines 150-366).
Statement bodies are lists of nodes (`PyL`). -/
inductive Py where
  | Module (body : PyL)
  | FunctionDef (body : PyL)
  | Return (value : Py)
  | Assign (targets : PyL) (value : Py)
  | Pass
  | BinOp (left : Py) (op : Bop) (right : Py)
  | Num (n : Int)
  | Name (id : String)

/-- Lists of abstract syntax nodes (Python lists such as `a.body`,
`a.targets`). -/
inductive PyL where
  | nil
  | cons (head : Py) (tail : PyL)

end

/-- The universe of Python values the modelled handlers exchange:
integers, strings, `None`, lists, pairs (Python 2-tuples, used for
`(result, context)`), and the empty dict `{}` that `Pydrogen.process`
passes as the initial context. -/
inductive Val where
  | int (n : Int)
  | str (s : String)
  | vnone
  | vlist (xs : List Val)
  | tup (fst : Val) (snd : Val)
  | dict

/-- Exceptions of the library: `PydrogenError` (unsupported constructs),
`SemanticError` (missing handler; carries the already-formatted message
produced by `SemanticError.__init__`, pydrogen.py lines 32-39), and a
catch-all for host-level errors such as `TypeError`. -/
inductive Err where
  | pydrogen (value : String)
  | semantic (value : String)
  | other (value : String)
deriving DecidableEq, Repr

/-- A single apostrophe, as used by `SemanticError.__init__` when quoting
the offending kind name. -/
def sq : String := (Char.ofNat 39).toString

/-- The message computed by `SemanticError.__init__` (pydrogen.py lines
33-37): the raw value `"Statements"` is special-cased to the distinguished
statement-sequence message; every other raw value is quoted into a
per-kind message. -/
def semMsg (raw : String) : String :=
  if raw = "Statements" then
    "No semantics specified for statement sequences."
  else
    "No semantics specified for " ++ sq ++ raw ++ sq ++ " nodes."

/-- The raw value the default `Statements` handler passes to
`SemanticError` (pydrogen.py line 369).  Note that it is not the string
`"Statements"` that `SemanticError.__init__` special-cases. -/
def statementsRaw : String := "Statements (Pydrogen-specific case)"

mutual

/-- Rendering of a node, standing in for `ast.dump` (used only inside
error messages). -/
def dumpPy : Py → String
  | .Module b => "Module(" ++ dumpPyL b ++ ")"
  | .FunctionDef b => "FunctionDef(" ++ dumpPyL b ++ ")"
  | .Return v => "Return(" ++ dumpPy v ++ ")"
  | .Assign t v => "Assign(" ++ dumpPyL t ++ ", " ++ dumpPy v ++ ")"
  | .Pass => "Pass()"
  | .BinOp l _ r => "BinOp(" ++ dumpPy l ++ ", " ++ dumpPy r ++ ")"
  | .Num n => "Num(" ++ toString n ++ ")"
  | .Name id => "Name(" ++ id ++ ")"

/-- Rendering of a node list, standing in for `ast.dump` on lists. -/
def dumpPyL : PyL → String
  | .nil => ""
  | .cons h .nil => dumpPy h
  | .cons h t => dumpPy h ++ ", " ++ dumpPyL t

end

/-- The unfolded (`pre`) payload stored in a `Subtree`: a single node, a
list of nodes, or a raw constant (`a.n`, `a.id`). -/
inductive Pre where
  | node (a : Py)
  | nodes (l : PyL)
  | num (n : Int)
  | str (s : String)

/-- Rendering of a `pre` payload, standing in for `ast.dump(self._pre)`. -/
def dumpPre : Pre → String
  | .node a => dumpPy a
  | .nodes l => "[" ++ dumpPyL l ++ "]"
  | .num n => toString n
  | .str s => s

/-- The dual-view `Subtree` wrapper (pydrogen.py lines 75-95): `pre`
holds the unfolded child payload; `postF` models the optional `_post`
thunk (absent when the `Subtree` was built without a second argument). -/
structure Sub where
  pre : Pre
  postF : Option (Val → Except Err Val) := none

/-- Model of `Subtree.post` (pydrogen.py lines 81-95): raises `PydrogenError` when
no thunk was supplied, otherwise runs the thunk on the given context and,
when the result is a tuple, discards the context component if the
incoming context was `None`. -/
def Sub.post (s : Sub) (ctx : Val) : Except Err Val :=
  match s.postF with
  | none =>
      .error (.pydrogen
        ("Pydrogen does not currently support definitions for "
          ++ "alternative interpretations of nodes of this type: "
          ++ dumpPre s.pre))
  | some f =>
      match f ctx with
      | .ok (.tup r c) =>
          match ctx with
          | .vnone => .ok r
          | _ => .ok (.tup r c)
      | r => r

/-- An argument supplied to a handler: either a `Subtree` wrapper or a
plain value (the context). -/
inductive Obj where
  | st (s : Sub)
  | v (x : Val)

/-- A handler as the engine sees it: `declared` is the number of
positional parameters of the Python method excluding `self`
(`len(inspect.getargspec(f).args) - 1`), and `fn` is its behaviour on the
argument list the engine supplies. -/
structure Handler where
  declared : Nat
  fn : List Obj → Except Err Val

/-- Model of `Pydrogen.attempt` (pydrogen.py lines 129-130): call the handler with
only the prefix of the supplied arguments that its declared parameter
count admits (`f(*args[0:len(inspect.getargspec(f).args)-1])`). -/
def attempt (h : Handler) (args : List Obj) : Except Err Val :=
  h.fn (args.take h.declared)

/-- A user interpretation: one optional handler per modelled kind.  A
field left `none` means the user did not override the corresponding
default method of class `Pydrogen`, whose body raises `SemanticError`
(pydrogen.py lines 369-411). -/
structure Interp where
  Statements : Option Handler := none
  Module : Option Handler := none
  FunctionDef : Option Handler := none
  Return : Option Handler := none
  Assign : Option Handler := none
  Pass : Option Handler := none
  BinOp : Option Handler := none
  Add : Option Handler := none
  Sub : Option Handler := none
  Mult : Option Handler := none
  MatMult : Option Handler := none
  Div : Option Handler := none
  Mod : Option Handler := none
  Pow : Option Handler := none
  LShift : Option Handler := none
  RShift : Option Handler := none
  BitOr : Option Handler := none
  BitXor : Option Handler := none
  BitAnd : Option Handler := none
  FloorDiv : Option Handler := none
  Num : Option Handler := none
  Name : Option Handler := none

/-- Resolve a handler slot: the user's handler when present, otherwise
the default method, which ignores its arguments and raises
`SemanticError raw` (pydrogen.py lines 369-411).  `d` is the default
method's declared parameter count excluding `self`. -/
def slotOr (o : Option Handler) (d : Nat) (raw : String) : Handler :=
  o.getD ⟨d, fun _ => .error (.semantic (semMsg raw))⟩

/-- The raw string each default binary sub-operator handler passes to
`SemanticError` (pydrogen.py lines 399-411).  The value for `bitxor`
reproduces the source's misspelling `"BixXor"` at line 409. -/
def opRaw : Bop → String
  | .add => "Add"
  | .sub => "Sub"
  | .mult => "Mult"
  | .matmult => "MatMult"
  | .div => "Div"
  | .mod => "Mod"
  | .pow => "Pow"
  | .lshift => "LShift"
  | .rshift => "RShift"
  | .bitor => "BitOr"
  | .bitxor => "BixXor"
  | .bitand => "BitAnd"
  | .floordiv => "FloorDiv"

/-- The interpretation's handler slot for a resolved binary sub-operator
(the `self.Add`, `self.Sub`, ... lookups at pydrogen.py lines 252-264). -/
def opSlot (I : Interp) : Bop → Option Handler
  | .add => I.Add
  | .sub => I.Sub
  | .mult => I.Mult
  | .matmult => I.MatMult
  | .div => I.Div
  | .mod => I.Mod
  | .pow => I.Pow
  | .lshift => I.LShift
  | .rshift => I.RShift
  | .bitor => I.BitOr
  | .bitxor => I.BitXor
  | .bitand => I.BitAnd
  | .floordiv => I.FloorDiv

/-- The final shaping of `Pydrogen.interprets` (pydrogen.py lines
141-144): return the bare list of results when the threaded context ends
as `None`, and the pair `(results, context)` otherwise. -/
def shapeResult (p : List Val × Val) : Val :=
  match p.2 with
  | .vnone => .vlist p.1
  | _ => .tup (.vlist p.1) p.2

/-- The `try ... except SemanticError` pattern around a resolved
sub-operator attempt (pydrogen.py lines 240-244, 251-266, 272-278,
296-308): if the attempt of the specific handler raises `SemanticError`
(from anywhere inside its execution), run the fallback attempt of the
generic family handler; any other outcome (a normal result or a
different exception) passes through unchanged. -/
def semFallback (x : Except Err Val) (fb : Unit → Except Err Val) : Except Err Val :=
  match x with
  | .error (.semantic _) => fb ()
  | r => r

mutual

/-- Model of `Pydrogen.interpret` (pydrogen.py lines 150-366): dispatch on the
node's type, wrap each child position in a lazy `Subtree`, and call the
kind's handler through `attempt`.  The `Return` case reproduces the
source exactly: line 171 dispatches to `self.FunctionDef`, not
`self.Return`.  The `BinOp` case first attempts the resolved
sub-operator's handler and falls back to the generic `BinOp` handler
when (and only when) that attempt raises `SemanticError`. -/
def interpret (I : Interp) : Py → Val → Except Err Val
  | .Module body, ctx =>
      attempt (slotOr I.Module 2 "Module")
        [Obj.st ⟨Pre.nodes body, some (fun c =>
            attempt (slotOr I.Statements 2 statementsRaw)
              [Obj.st ⟨Pre.nodes body,
                 some (fun c2 => (interpretsAux I body c2).map shapeResult)⟩,
               Obj.v c])⟩,
         Obj.v ctx]
  | .FunctionDef body, ctx =>
      attempt (slotOr I.FunctionDef 2 "FunctionDef")
        [Obj.st ⟨Pre.nodes body, some (fun c =>
            attempt (slotOr I.Statements 2 statementsRaw)
              [Obj.st ⟨Pre.nodes body,
                 some (fun c2 => (interpretsAux I body c2).map shapeResult)⟩,
               Obj.v c])⟩,
         Obj.v ctx]
  | .Return value, ctx =>
      attempt (slotOr I.FunctionDef 2 "FunctionDef")
        [Obj.st ⟨Pre.node value, some (fun c => interpret I value c)⟩,
         Obj.v ctx]
  | .Assign targets value, ctx =>
      attempt (slotOr I.Assign 3 "Assign")
        [Obj.st ⟨Pre.nodes targets, none⟩,
         Obj.st ⟨Pre.node value, some (fun c => interpret I value c)⟩,
         Obj.v ctx]
  | .Pass, ctx =>
      attempt (slotOr I.Pass 1 "Pass") [Obj.v ctx]
  | .BinOp left op right, ctx =>
      semFallback
        (attempt (slotOr (opSlot I op) 3 (opRaw op))
          [Obj.st ⟨Pre.node left, some (fun c => interpret I left c)⟩,
           Obj.st ⟨Pre.node right, some (fun c => interpret I right c)⟩,
           Obj.v ctx])
        (fun _ =>
          attempt (slotOr I.BinOp 3 "BinOp")
            [Obj.st ⟨Pre.node left, some (fun c => interpret I left c)⟩,
             Obj.st ⟨Pre.node right, some (fun c => interpret I right c)⟩,
             Obj.v ctx])
  | .Num n, ctx =>
      attempt (slotOr I.Num 2 "Num")
        [Obj.st ⟨Pre.num n, some (fun _ => .ok (.int n))⟩, Obj.v ctx]
  | .Name id, ctx =>
      attempt (slotOr I.Name 2 "Name")
        [Obj.st ⟨Pre.str id, some (fun _ => .ok (.str id))⟩, Obj.v ctx]

/-- The loop of `Pydrogen.interprets` (pydrogen.py lines 134-140):
interpret the statements in order, replacing the threaded context
whenever a statement's result is a tuple, and collect the (untupled)
per-statement results. -/
def interpretsAux (I : Interp) : PyL → Val → Except Err (List Val × Val)
  | .nil, ctx => .ok ([], ctx)
  | .cons s ss, ctx =>
      match interpret I s ctx with
      | .error e => .error e
      | .ok (.tup r c2) => (interpretsAux I ss c2).map (fun p => (r :: p.1, p.2))
      | .ok r => (interpretsAux I ss ctx).map (fun p => (r :: p.1, p.2))

end

/-- Model of `Pydrogen.interprets` (pydrogen.py lines 134-144): the threading loop
followed by the final list-or-pair shaping. -/
def interprets (I : Interp) (l : PyL) (ctx : Val) : Except Err Val :=
  (interpretsAux I l ctx).map shapeResult

/-- An original callable, as the engine sees one: behaviour when invoked,
the tree its source parses to (the result of
`ast.parse(inspect.getsource(original))`, supplied by the external source
provider), and its plain attributes (targets of the `getattr` fallthrough
in `Function.__getattr__`, pydrogen.py line 62). -/
structure Callable (α β : Type) where
  run : α → β
  tree : Py
  attrs : List (String × Val)

/-- Python dict insertion (`d[k] = x`): overwrite in place when the key
is present, append otherwise. -/
def dinsert : List (String × Val) → String → Val → List (String × Val)
  | [], k, x => [(k, x)]
  | (k2, x2) :: t, k, x =>
      if k2 = k then (k2, x) :: t else (k2, x2) :: dinsert t k x

/-- Python dict lookup (`k in d` followed by `d[k]`). -/
def dget : List (String × Val) → String → Option Val
  | [], _ => none
  | (k2, x) :: t, k => if k2 = k then some x else dget t k

/-- The `Function` result carrier (pydrogen.py lines 46-68):
`interpretations` maps interpretation class names to their computed
results (`self._interpretations`), and `func` is the original callable
(`self._func`, always unwrapped). -/
structure Function (α β : Type) where
  interpretations : List (String × Val)
  func : Callable α β

/-- The argument `Function.__init__` receives: either a bare callable or
an already-built `Function` carrier (stacked decorators). -/
inductive FObj (α β : Type) where
  | plain (c : Callable α β)
  | wrapped (f : Function α β)

/-- Model of `Function.__init__` (pydrogen.py lines 47-58): start from the wrapped
argument's accumulated interpretations (or an empty dict for a bare
callable), keep the unwrapped original as `func`, and store the new
result under the interpretation's class name. -/
def mkFunction {α β : Type} (f : FObj α β) (clsName : String) (result : Val) :
    Function α β :=
  match f with
  | .plain c => { interpretations := dinsert [] clsName result, func := c }
  | .wrapped g =>
      { interpretations := dinsert g.interpretations clsName result
        func := g.func }

/-- The `original` computed by `Pydrogen.process` (pydrogen.py line 122):
`func._func` when the argument is already a `Function`, the argument
itself otherwise. -/
def origOf {α β : Type} : FObj α β → Callable α β
  | .plain c => c
  | .wrapped g => g.func

/-- Model of `Pydrogen.process` (pydrogen.py lines 121-123): fold the original
callable's tree with the initial context `{}` and wrap the outcome in a
`Function` carrier keyed by the interpretation's class name.  A fold
error propagates and no carrier is produced. -/
def process {α β : Type} (clsName : String) (I : Interp) (f : FObj α β) :
    Except Err (Function α β) :=
  (interpret I (origOf f).tree .dict).map (mkFunction f clsName)

/-- Outcome of an attribute request on a `Function` carrier
(`Function.__getattr__`, pydrogen.py lines 59-62): a stored
interpretation result, an attribute of the original callable, or an
`AttributeError` (the result-not-found failure). -/
inductive Attr where
  | result (x : Val)
  | funcAttr (x : Val)
  | notFound

/-- Model of `Function.__getattr__` (pydrogen.py lines 59-62): stored
interpretation results take precedence; otherwise fall through to the
original callable's own attributes; otherwise the request fails. -/
def Function.getattr {α β : Type} (F : Function α β) (attr : String) : Attr :=
  match dget F.interpretations attr with
  | some x => .result x
  | none =>
      match dget F.func.attrs attr with
      | some x => .funcAttr x
      | none => .notFound

/-- Model of `Function.__call__` (pydrogen.py lines 63-64): invoking the carrier
delegates to the original callable. -/
def Function.call {α β : Type} (F : Function α β) (x : α) : β :=
  F.func.run x

/-- A host-level `TypeError`, raised when a handler body receives an
argument list that does not fit its parameter pattern. -/
def typeError {γ : Type} : Except Err γ :=
  .error (.other "TypeError")

/-- Integer extraction from a value; anything else is a host `TypeError`
(Python `1 + x` on a non-number). -/
def asInt : Val → Except Err Int
  | .int n => .ok n
  | _ => typeError

/-- Python `sum` over a list of integers. -/
def sumInts : List Val → Except Err Int
  | [] => .ok 0
  | .int n :: t => (sumInts t).map (fun m => n + m)
  | _ => typeError

/-- The shared handler shape of `Typical.Module`, `Typical.FunctionDef`
and `Typical.Return` (pydrogen.py lines 435-438): two declared
parameters `(ss, context)`, body `return ss.post(context)`. -/
def typicalPostH : Handler :=
  ⟨2, fun args =>
    match args with
    | [Obj.st ss, Obj.v c] => ss.post c
    | _ => typeError⟩

/-- Model of `ASTSize.Statements` (pydrogen.py line 443): one declared parameter,
body `return sum(ss.post())`. -/
def astSizeStatementsH : Handler :=
  ⟨1, fun args =>
    match args with
    | [Obj.st ss] => do
        let v ← ss.post .vnone
        match v with
        | .vlist xs => (sumInts xs).map Val.int
        | _ => typeError
    | _ => typeError⟩

/-- Model of `ASTSize.Return` (pydrogen.py line 445): `return 1 + e.post()`. -/
def astSizeReturnH : Handler :=
  ⟨1, fun args =>
    match args with
    | [Obj.st e] => do
        let v ← e.post .vnone
        let n ← asInt v
        .ok (.int (1 + n))
    | _ => typeError⟩

/-- Model of `ASTSize.Assign` (pydrogen.py line 446): `return 1 + e.post()`,
ignoring the targets. -/
def astSizeAssignH : Handler :=
  ⟨2, fun args =>
    match args with
    | [_, Obj.st e] => do
        let v ← e.post .vnone
        let n ← asInt v
        .ok (.int (1 + n))
    | _ => typeError⟩

/-- Model of `ASTSize.BinOp` (pydrogen.py line 454):
`return 1 + e1.post() + e2.post()`. -/
def astSizeBinOpH : Handler :=
  ⟨2, fun args =>
    match args with
    | [Obj.st e1, Obj.st e2] => do
        let v1 ← e1.post .vnone
        let n1 ← asInt v1
        let v2 ← e2.post .vnone
        let n2 ← asInt v2
        .ok (.int (1 + n1 + n2))
    | _ => typeError⟩

/-- Model of `ASTSize.Num` (pydrogen.py line 449): one declared parameter,
`return 1`. -/
def astSizeNumH : Handler :=
  ⟨1, fun args =>
    match args with
    | [_] => .ok (.int 1)
    | _ => typeError⟩

/-- Model of `ASTSize.Name` (pydrogen.py line 451): no declared parameters,
`return 1`. -/
def astSizeNameH : Handler :=
  ⟨0, fun args =>
    match args with
    | [] => .ok (.int 1)
    | _ => typeError⟩

/-- The `ASTSize` interpretation (pydrogen.py lines 435-457) restricted
to the modelled grammar: `Module` and `FunctionDef` are inherited from
`Typical`; `Statements`, `Return`, `Assign`, `BinOp`, `Num` and `Name`
are `ASTSize`'s own definitions.  (`ASTSize` also defines `Call`,
`BoolOp`, `UnaryOp`, `Compare` and `NameConstant`, whose node kinds lie
outside the modelled fragment and are never reached by the scenario.) -/
def astSizeI : Interp :=
  { Statements := some astSizeStatementsH
    Module := some typicalPostH
    FunctionDef := some typicalPostH
    Return := some astSizeReturnH
    Assign := some astSizeAssignH
    BinOp := some astSizeBinOpH
    Num := some astSizeNumH
    Name := some astSizeNameH }

/-- Scenario 1 of the specification: the parse of a function whose body
is the single statement `return 1 + 2` (a module containing one function
definition containing one return of `1 + 2`). -/
def scenario1 : Py :=
  .Module (.cons
    (.FunctionDef (.cons (.Return (.BinOp (.Num 1) .add (.Num 2))) .nil))
    .nil)

/-- Interpretation for the C2 counterexample: only `Module` is
implemented (one declared parameter, the Python method
`def Module(self, ss): return 42`), and its body never calls `post`. -/
def c2LazyI : Interp :=
  { Module := some ⟨1, fun _ => .ok (.int 42)⟩ }

/-- The interpretation that implements nothing (a bare `Pydrogen`
subclass with no overrides). -/
def emptyI : Interp := {}

/-- Whether the handler slot that `Pydrogen.interpret` consults first
for this node's kind is unimplemented (for a resolved binary
sub-operator: both the specific and the generic family slot).  The
`Return` case mirrors pydrogen.py line 171, which dispatches `Return`
nodes to the `FunctionDef` handler. -/
def headMissing (I : Interp) : Py → Prop
  | .Module _ => I.Module = none
  | .FunctionDef _ => I.FunctionDef = none
  | .Return _ => I.FunctionDef = none
  | .Assign _ _ => I.Assign = none
  | .Pass => I.Pass = none
  | .BinOp _ op _ => opSlot I op = none ∧ I.BinOp = none
  | .Num _ => I.Num = none
  | .Name _ => I.Name = none

/-- The raw kind name carried by the `SemanticError` that surfaces when
the slots of `headMissing` are unimplemented: the node's own kind for
plain kinds, `"FunctionDef"` for `Return` nodes (pydrogen.py line 171),
and the family name `"BinOp"` for binary operations (the specific
sub-operator's error is caught and the family default's error is the one
that propagates, pydrogen.py lines 251-266). -/
def headErrName : Py → String
  | .Module _ => "Module"
  | .FunctionDef _ => "FunctionDef"
  | .Return _ => "FunctionDef"
  | .Assign _ _ => "Assign"
  | .Pass => "Pass"
  | .BinOp _ _ _ => "BinOp"
  | .Num _ => "Num"
  | .Name _ => "Name"

/-- The operand `Subtree` the engine builds for each side of a `BinOp`
node (pydrogen.py lines 247-248). -/
def operandSub (I : Interp) (e : Py) : Sub :=
  ⟨Pre.node e, some (fun c => interpret I e c)⟩

/-- Specific `Add` handler for the C3 counterexample: declared
`(e1, e2, context)`, body `return e1.post()` — it folds its left
operand, so a missing handler inside that operand raises
`SemanticError` out of the specific handler's own execution. -/
def c3AddPostH : Handler :=
  ⟨3, fun args =>
    match args with
    | Obj.st e1 :: _ => e1.post .vnone
    | _ => typeError⟩

/-- Generic family handler for the C3 counterexample: ignores its
arguments and returns `99`. -/
def c3BinOp99H : Handler :=
  ⟨3, fun _ => .ok (.int 99)⟩

/-- Interpretation for the C3 counterexample: both the specific `Add`
handler and the generic `BinOp` handler are implemented; `Name` is not. -/
def c3CexI : Interp :=
  { Add := some c3AddPostH
    BinOp := some c3BinOp99H }

/-- Specific `Add` handler for the C3 witness: returns `7`. -/
def c3Add7H : Handler :=
  ⟨3, fun _ => .ok (.int 7)⟩

/-- Interpretation for the C3 witness: both the specific `Add` handler
(returning `7`) and the generic `BinOp` handler (returning `99`) are
implemented. -/
def c3BothI : Interp :=
  { Add := some c3Add7H
    BinOp := some c3BinOp99H }

/-- The `Assign` handler for the C4 interpretation: declared
`(targets, e, context)`, returns the pair `(0, context + 1)` so that its
outgoing context differs from the incoming one. -/
def threadAssignH : Handler :=
  ⟨3, fun args =>
    match args with
    | [_, _, Obj.v (.int k)] => .ok (.tup (.int 0) (.int (k + 1)))
    | _ => typeError⟩

/-- The `Pass` handler for the C4 interpretation: declared `(context)`,
returns the context it receives, making the context visible in the
per-statement result list. -/
def threadPassH : Handler :=
  ⟨1, fun args =>
    match args with
    | [Obj.v c] => .ok c
    | _ => typeError⟩

/-- Interpretation for the C4 counterexample: `Module` and `Statements`
simply forward via a single `ss.post(context)` call (they perform no
per-sibling threading of their own), `Assign` emits an updated context,
and `Pass` reports the context it observes. -/
def threadI : Interp :=
  { Statements := some typicalPostH
    Module := some typicalPostH
    Assign := some threadAssignH
    Pass := some threadPassH }

/-- The two-statement module `x = 0` then `pass` used by the C4
counterexample. -/
def threadTree : Py :=
  .Module (.cons (.Assign (.cons (.Name "x") .nil) (.Num 0))
    (.cons .Pass .nil))

/-- Erasure of a handler argument to its unfolded payload: a `Subtree`
argument keeps only its `pre` view, a plain value stays itself.  A
handler factoring through this erasure is one that consults `pre()` only
and never calls `post()`. -/
inductive PreV where
  | pre (p : Pre)
  | val (x : Val)

/-- The erasure map on handler arguments. -/
def eraseObj : Obj → PreV
  | .st s => .pre s.pre
  | .v x => .val x

/-- A handler body that uses only the `pre` views of its arguments:
its result is a function of the erased argument list alone, so it can
never force a child's fold. -/
def preOnly (g : List PreV → Except Err Val) : List Obj → Except Err Val :=
  fun args => g (args.map eraseObj)

/-- The handler slot `Pydrogen.interpret` consults first for a node
(the specific sub-operator slot for binary operations; the `FunctionDef`
slot for `Return` nodes, pydrogen.py line 171). -/
def headSlot (I : Interp) : Py → Option Handler
  | .Module _ => I.Module
  | .FunctionDef _ => I.FunctionDef
  | .Return _ => I.FunctionDef
  | .Assign _ _ => I.Assign
  | .Pass => I.Pass
  | .BinOp _ op _ => opSlot I op
  | .Num _ => I.Num
  | .Name _ => I.Name

/-- The erased argument list the engine supplies for a node: the `pre`
payloads of the `Subtree` wrappers of pydrogen.py lines 150-366, with
the context value last. -/
def headArgsPre (a : Py) (ctx : Val) : List PreV :=
  match a with
  | .Module body => [.pre (.nodes body), .val ctx]
  | .FunctionDef body => [.pre (.nodes body), .val ctx]
  | .Return v => [.pre (.node v), .val ctx]
  | .Assign t v => [.pre (.nodes t), .pre (.node v), .val ctx]
  | .Pass => [.val ctx]
  | .BinOp l _ r => [.pre (.node l), .pre (.node r), .val ctx]
  | .Num n => [.pre (.num n), .val ctx]
  | .Name id => [.pre (.str id), .val ctx]

/-- The pre-only body of the C6 witness handler: always `42`. -/
def c6G : List PreV → Except Err Val := fun _ => .ok (.int 42)

/-- Interpretation for the C6 witness: `Module` is implemented by a
pre-only handler with one declared parameter; nothing else is
implemented. -/
def c6LazyI : Interp :=
  { Module := some ⟨1, preOnly c6G⟩ }

/-- Handler counting how many of its arguments are `Subtree` wrappers
(used to observe exactly which arguments `attempt` supplied). -/
def countSt : List Obj → Nat
  | [] => 0
  | .st _ :: t => countSt t + 1
  | _ :: t => countSt t

/-- The counting handler body for C7. -/
def countStF : List Obj → Except Err Val :=
  fun args => .ok (.int (countSt args))

/-- Handler for the C7 counterexample: the Python method
`def Assign(self, targets, context=None)` — one child parameter plus a
context parameter, hence two declared positional parameters — whose body
reports how many `Subtree` arguments it actually received. -/
def c7Handler : Handler := ⟨2, countStF⟩

/-- Interpretation for the C7 counterexample. -/
def c7I : Interp := { Assign := some c7Handler }

/-- A throwaway child view used in the C7 witness. -/
def c7Sub1 : Sub := ⟨Pre.num 1, none⟩

/-- A second throwaway child view used in the C7 witness. -/
def c7Sub2 : Sub := ⟨Pre.num 2, none⟩

/-- Interpretation for the C8 failing input: `Module` forwards via
`ss.post(context)` (as `Typical` does) and the `Statements` aggregate is
left unimplemented. -/
def c8I : Interp := { Module := some typicalPostH }

/-- A `Module` handler with one declared parameter that ignores its
argument and returns the given value — the Python method
`def Module(self, ss): return v`. -/
def constModuleH (v : Val) : Handler := ⟨1, fun _ => .ok v⟩

/-- The bare callable used by the C5 witness: a trivial function whose
source parses to a one-statement module and which carries no attributes
of its own. -/
def c5Callable : Callable Unit Unit :=
  ⟨fun _ => (), .Module (.cons .Pass .nil), []⟩

/-- Interpretation `A` of the C5 witness: its fold yields `1`. -/
def c5IA : Interp := { Module := some (constModuleH (.int 1)) }

/-- Interpretation `B` of the C5 witness: its fold yields `2`. -/
def c5IB : Interp := { Module := some (constModuleH (.int 2)) }

/-- The bare callable used by the C9 witness. -/
def c9Callable : Callable Unit Unit :=
  ⟨fun _ => (), .Module (.cons .Pass .nil), []⟩

/-- Interpretation `A` of the C9 witness. -/
def c9IA : Interp := { Module := some (constModuleH (.int 1)) }

/-- Interpretation `B` of the C9 witness. -/
def c9IB : Interp := { Module := some (constModuleH (.int 2)) }

/-- The bare callable used by the C10 witness. -/
def c10Callable : Callable Unit Unit :=
  ⟨fun _ => (), .Module (.cons .Pass .nil), []⟩

/-- First interpretation instance of the C10 witness; its class name
collides with the second one's. -/
def c10IA : Interp := { Module := some (constModuleH (.int 1)) }

/-- Second interpretation instance of the C10 witness, a different
instance whose class shares the name of the first. -/
def c10IB : Interp := { Module := some (constModuleH (.int 2)) }

/-- Helper: `semFallback` passes through any outcome that is not a
`SemanticError`. -/
theorem semFallback_of_nonsem (x : Except Err Val) (fb : Unit → Except Err Val)
    (hx : ∀ s, x ≠ .error (.semantic s)) : semFallback x fb = x := by
  match x with
  | .ok v => rfl
  | .error (.pydrogen s) => rfl
  | .error (.other s) => rfl
  | .error (.semantic s) => exact absurd rfl (hx s)

/-- C1: the claim expects the size fold of the tree of `return 1 + 2`
under the `ASTSize` interpretation to be 4 (literal→1, binary-op→3,
return→4).  The code yields 3: pydrogen.py line 171 dispatches the
`Return` node to the `FunctionDef` handler (`Typical.FunctionDef`, which
merely forwards `ss.post(context)`) instead of `ASTSize.Return`, so the
`1 + ...` of the return handler is never added.  This theorem evaluates
the modelled code at the failing input. -/
theorem c1_astSize_scenario1 :
    interpret astSizeI scenario1 .dict = .ok (.int 3)
    ∧ interpret astSizeI scenario1 .dict ≠ .ok (.int 4) := by
  refine ⟨rfl, fun h => ?_⟩
  rw [show interpret astSizeI scenario1 .dict = .ok (.int 3) from rfl] at h
  injection h with h1
  injection h1 with h2
  exact absurd h2 (by decide)

/-- C2 counterexample: the kind `Pass` is present in the tree
`Module [Pass]` and the interpretation `c2LazyI` implements no `Pass`
handler, yet the fold succeeds with 42 — the `Module` handler never
calls `post()`, so the missing handler is never invoked and no
`SemanticError` arises.  The claim, which predicts failure for every
tree containing an unhandled kind, is therefore false as stated. -/
theorem c2_counterexample :
    c2LazyI.Pass = none
    ∧ interpret c2LazyI (.Module (.cons .Pass .nil)) .vnone = .ok (.int 42) :=
  ⟨rfl, rfl⟩

/-- C2 amended: when `Pydrogen.interpret` actually consults an
unimplemented handler slot for a node (for a resolved binary sub-op,
with the generic family slot also unimplemented), the fold of that node
fails with a `SemanticError`; the message names the node's kind for
plain kinds, `FunctionDef` for `Return` nodes (which the engine
dispatches to the `FunctionDef` handler, pydrogen.py line 171), and the
family name `BinOp` for binary operations (the specific sub-op's error
is caught by the fallback and the family default's error propagates). -/
theorem c2_amended (I : Interp) (a : Py) (ctx : Val) (h : headMissing I a) :
    interpret I a ctx = .error (.semantic (semMsg (headErrName a))) := by
  cases a with
  | Module body =>
      simp only [headMissing] at h
      simp [interpret, attempt, slotOr, h, headErrName]
  | FunctionDef body =>
      simp only [headMissing] at h
      simp [interpret, attempt, slotOr, h, headErrName]
  | Return value =>
      simp only [headMissing] at h
      simp [interpret, attempt, slotOr, h, headErrName]
  | Assign targets value =>
      simp only [headMissing] at h
      simp [interpret, attempt, slotOr, h, headErrName]
  | Pass =>
      simp only [headMissing] at h
      simp [interpret, attempt, slotOr, h, headErrName]
  | BinOp left op right =>
      simp only [headMissing] at h
      simp [interpret, attempt, slotOr, h.1, h.2, semFallback, headErrName]
  | Num n =>
      simp only [headMissing] at h
      simp [interpret, attempt, slotOr, h, headErrName]
  | Name id =>
      simp only [headMissing] at h
      simp [interpret, attempt, slotOr, h, headErrName]

/-- C2 amended, witness: the empty interpretation folding a bare `pass`
statement fails naming `Pass`. -/
theorem c2_amended_witness :
    interpret emptyI .Pass .vnone = .error (.semantic (semMsg "Pass")) :=
  c2_amended emptyI .Pass .vnone rfl

/-- C3 counterexample: `c3CexI` implements both the specific `Add`
handler and the generic `BinOp` handler, yet on `Name "x" + 1` the
node's result is the generic handler's 99, not the specific handler's
outcome (a `SemanticError` for the unimplemented `Name`, raised inside
the specific handler's own execution and caught by the engine's
fallback).  This falsifies the claim's assertion that with both
implemented the specific handler's result is the node's result and the
generic handler is never invoked. -/
theorem c3_counterexample :
    c3CexI.Add = some c3AddPostH
    ∧ c3CexI.BinOp = some c3BinOp99H
    ∧ attempt c3AddPostH
        [Obj.st (operandSub c3CexI (.Name "x")),
         Obj.st (operandSub c3CexI (.Num 1)), Obj.v .vnone]
        = .error (.semantic (semMsg "Name"))
    ∧ interpret c3CexI (.BinOp (.Name "x") .add (.Num 1)) .vnone
        = .ok (.int 99) :=
  ⟨rfl, rfl, rfl, rfl⟩

/-- C3 amended: for a binary-op node resolved to `Add`, (i) if the
specific `Add` handler is unimplemented the fold is exactly the attempt
of the generic `BinOp` family handler on the same folded operand views;
(ii) if the specific `Add` handler is implemented and its attempt does
not produce a `SemanticError`, its result is the node's result — the
right-hand side does not mention the generic slot, so the generic
handler is not consulted.  (If the specific attempt does raise a
`SemanticError`, even from a nested fold, the engine falls back to the
generic handler, as the counterexample shows.) -/
theorem c3_amended (I : Interp) (left right : Py) (ctx : Val) :
    (I.Add = none →
      interpret I (.BinOp left .add right) ctx
        = attempt (slotOr I.BinOp 3 "BinOp")
            [Obj.st (operandSub I left), Obj.st (operandSub I right),
             Obj.v ctx])
    ∧ (∀ hd : Handler, I.Add = some hd →
        (∀ s, attempt hd
            [Obj.st (operandSub I left), Obj.st (operandSub I right),
             Obj.v ctx]
          ≠ .error (.semantic s)) →
        interpret I (.BinOp left .add right) ctx
          = attempt hd
              [Obj.st (operandSub I left), Obj.st (operandSub I right),
               Obj.v ctx]) := by
  have e1 : interpret I (.BinOp left .add right) ctx
      = semFallback
          (attempt (slotOr I.Add 3 (opRaw .add))
            [Obj.st (operandSub I left), Obj.st (operandSub I right),
             Obj.v ctx])
          (fun _ =>
            attempt (slotOr I.BinOp 3 "BinOp")
              [Obj.st (operandSub I left), Obj.st (operandSub I right),
               Obj.v ctx]) := rfl
  constructor
  · intro h
    rw [e1, h]
    rfl
  · intro hd hAdd hns
    rw [e1, hAdd]
    exact semFallback_of_nonsem _ _ hns

/-- C3 amended, witness: with both handlers implemented and a specific
`Add` handler that succeeds (returning 7), the node's result is 7, not
the generic handler's 99. -/
theorem c3_amended_witness :
    interpret c3BothI (.BinOp (.Num 1) .add (.Num 2)) .vnone
      = .ok (.int 7) := by
  have hns : ∀ s,
      attempt c3Add7H
        [Obj.st (operandSub c3BothI (.Num 1)),
         Obj.st (operandSub c3BothI (.Num 2)), Obj.v .vnone]
        ≠ .error (.semantic s) := by
    intro s hs
    simp [attempt, c3Add7H] at hs
  exact ((c3_amended c3BothI (.Num 1) (.Num 2) .vnone).2 c3Add7H rfl hns).trans rfl

/-- C4 counterexample: in `threadI` the `Statements` aggregate handler
makes a single `ss.post(context)` call and performs no per-sibling
threading of its own; the `Assign` handler emits `(0, context + 1)` and
the `Pass` handler reports the context it receives.  Folding
`x = 0; pass` with incoming context 0, the `pass` statement observes
context 1 — the engine's own `interprets` loop passed statement 1's
outgoing context to statement 2 (pydrogen.py lines 136-140).  Under the
claim ("the engine itself does not pass context from one sibling to the
next") the second result would have been 0. -/
theorem c4_counterexample :
    interpret threadI threadTree (.int 0)
      = .ok (.tup (.vlist [.int 0, .int 1]) (.int 1)) := rfl

/-- C4 amended: sibling-to-sibling context threading is performed by the
engine's own `interprets` loop: whenever a statement's result is a
`(result, context)` pair, the engine itself feeds that context into the
fold of the next sibling.  (The sequence aggregate handler decides what
context enters the aggregate fold and what its overall result is, but
the per-sibling hand-off is automatic.) -/
theorem c4_amended (I : Interp) (s : Py) (ss : PyL) (c r c2 : Val)
    (h : interpret I s c = .ok (.tup r c2)) :
    interpretsAux I (.cons s ss) c
      = (interpretsAux I ss c2).map (fun p => (r :: p.1, p.2)) := by
  simp only [interpretsAux, h]

/-- C4 amended, witness: after the `Assign` statement returns
`(0, context + 1)`, the engine folds the remaining statements with the
updated context 1. -/
theorem c4_amended_witness :
    interpretsAux threadI
        (.cons (.Assign (.cons (.Name "x") .nil) (.Num 0))
          (.cons .Pass .nil))
        (.int 0)
      = (interpretsAux threadI (.cons .Pass .nil) (.int 1)).map
          (fun p => (Val.int 0 :: p.1, p.2)) :=
  c4_amended threadI _ _ _ _ _ rfl

/-- C5: applying interpretation `A` (class name `nA`) to a bare
callable and then interpretation `B` (class name `nB`) to the resulting
carrier yields a carrier exposing `A`'s result under `nA` and `B`'s
result under `nB`; the carrier holding only `A`'s result answers a
request for `nB` with the result-not-found failure, after falling
through to the original callable's own attributes (assumed here not to
contain `nB`). -/
theorem c5_carrier_accumulates {α β : Type} (c : Callable α β)
    (IA IB : Interp) (nA nB : String) (rA rB : Val) (FA FAB : Function α β)
    (hIA : interpret IA c.tree .dict = .ok rA)
    (hIB : interpret IB c.tree .dict = .ok rB)
    (hne : nA ≠ nB)
    (hattr : dget c.attrs nB = none)
    (hA : process nA IA (.plain c) = .ok FA)
    (hB : process nB IB (.wrapped FA) = .ok FAB) :
    FA.getattr nA = .result rA ∧ FA.getattr nB = .notFound
      ∧ FAB.getattr nA = .result rA ∧ FAB.getattr nB = .result rB := by
  have hFA : FA = mkFunction (.plain c) nA rA := by
    simp only [process, origOf, hIA, Except.map] at hA
    exact (Except.ok.inj hA).symm
  subst hFA
  have hFAB : FAB = mkFunction (.wrapped (mkFunction (.plain c) nA rA)) nB rB := by
    simp only [process, origOf, mkFunction, hIB, Except.map] at hB
    exact (Except.ok.inj hB).symm
  subst hFAB
  refine ⟨?_, ?_, ?_, ?_⟩ <;>
    simp [Function.getattr, mkFunction, dinsert, dget, hne, hattr]

/-- C5 witness: interpretation `A` stores 1, interpretation `B` stores
2; the stacked carrier exposes both, and the single-interpretation
carrier reports `notFound` for `B`. -/
theorem c5_witness :
    (mkFunction (FObj.plain c5Callable) "A" (.int 1)).getattr "A"
        = .result (.int 1)
    ∧ (mkFunction (FObj.plain c5Callable) "A" (.int 1)).getattr "B"
        = .notFound
    ∧ (mkFunction
        (FObj.wrapped (mkFunction (FObj.plain c5Callable) "A" (.int 1)))
        "B" (.int 2)).getattr "A" = .result (.int 1)
    ∧ (mkFunction
        (FObj.wrapped (mkFunction (FObj.plain c5Callable) "A" (.int 1)))
        "B" (.int 2)).getattr "B" = .result (.int 2) :=
  c5_carrier_accumulates c5Callable c5IA c5IB "A" "B" (.int 1) (.int 2)
    (mkFunction (FObj.plain c5Callable) "A" (.int 1))
    (mkFunction
      (FObj.wrapped (mkFunction (FObj.plain c5Callable) "A" (.int 1)))
      "B" (.int 2))
    rfl rfl (by decide) rfl rfl rfl

/-- C6: for every tree and every handler whose body uses only the `pre`
views of its arguments (it factors through the erasure `preOnly`, hence
never calls `post()`), the fold of the node equals that body applied to
the erased argument prefix — an expression in which no child fold
occurs, so no semantics-missing error can arise from any child, even
one containing a kind with no implemented handler.  (The side condition
asks that the body's outcome not itself be a `SemanticError`; for a
resolved binary sub-operator such an outcome would trigger the generic
fallback.) -/
theorem c6_pre_only (I : Interp) (a : Py) (ctx : Val) (d : Nat)
    (g : List PreV → Except Err Val)
    (h1 : headSlot I a = some ⟨d, preOnly g⟩)
    (h2 : ∀ s, g ((headArgsPre a ctx).take d) ≠ .error (.semantic s)) :
    interpret I a ctx = g ((headArgsPre a ctx).take d) := by
  cases a with
  | Module body =>
      simp only [headSlot] at h1
      simp only [headArgsPre] at h2 ⊢
      simp [interpret, h1, slotOr, attempt, preOnly, List.map_take, eraseObj]
  | FunctionDef body =>
      simp only [headSlot] at h1
      simp only [headArgsPre] at h2 ⊢
      simp [interpret, h1, slotOr, attempt, preOnly, List.map_take, eraseObj]
  | Return value =>
      simp only [headSlot] at h1
      simp only [headArgsPre] at h2 ⊢
      simp [interpret, h1, slotOr, attempt, preOnly, List.map_take, eraseObj]
  | Assign targets value =>
      simp only [headSlot] at h1
      simp only [headArgsPre] at h2 ⊢
      simp [interpret, h1, slotOr, attempt, preOnly, List.map_take, eraseObj]
  | Pass =>
      simp only [headSlot] at h1
      simp only [headArgsPre] at h2 ⊢
      simp [interpret, h1, slotOr, attempt, preOnly, List.map_take, eraseObj]
  | BinOp left op right =>
      simp only [headSlot] at h1
      simp only [headArgsPre] at h2 ⊢
      simp only [interpret, h1, slotOr, Option.getD, attempt, preOnly,
        List.map_take, List.map_cons, List.map_nil, eraseObj]
      exact semFallback_of_nonsem _ _ h2
  | Num n =>
      simp only [headSlot] at h1
      simp only [headArgsPre] at h2 ⊢
      simp [interpret, h1, slotOr, attempt, preOnly, List.map_take, eraseObj]
  | Name id =>
      simp only [headSlot] at h1
      simp only [headArgsPre] at h2 ⊢
      simp [interpret, h1, slotOr, attempt, preOnly, List.map_take, eraseObj]

/-- C6 witness: a pre-only `Module` handler returning 42 folds
`Module [Pass]` to 42 even though `Pass` has no implemented handler —
the child's fold is never triggered. -/
theorem c6_witness :
    interpret c6LazyI (.Module (.cons .Pass .nil)) .vnone = .ok (.int 42) := by
  refine (c6_pre_only c6LazyI (.Module (.cons .Pass .nil)) .vnone 1 c6G rfl
    ?_).trans rfl
  intro s hs
  simp [c6G] at hs

/-- C7 counterexample: the handler `c7Handler` models the Python method
`def Assign(self, targets, context=None)` — one child parameter plus a
declared context parameter, two positional parameters in all.  At an
`Assign` node the engine supplies (targets view, value view, context);
the slice `args[0:2]` hands the handler two `Subtree` arguments and no
context, so the handler observes 2 subtree arguments where the claim
("context passed last and only when declared") predicts 1 subtree plus
the context. -/
theorem c7_counterexample :
    c7Handler.declared = 2
    ∧ interpret c7I (.Assign (.cons (.Name "x") .nil) (.Num 5)) (.int 0)
        = .ok (.int 2) :=
  ⟨rfl, rfl⟩

/-- C7 amended: `Pydrogen.attempt` slices the supplied argument list
`children ++ [context]` to the handler's declared parameter count.  For
a handler declaring `c` child parameters and a context parameter with
`c` equal to the number of supplied children, this passes the children
followed by the context; for a handler declaring `c ≤ children` child
parameters and no context parameter, it passes exactly those `c`
children and no context.  (A handler declaring a context parameter but
fewer child parameters than supplied children instead receives children
in the context position, as the counterexample shows — the slice is
purely positional.) -/
theorem c7_amended (f : List Obj → Except Err Val) (c : Nat) (tc : Bool)
    (children : List Obj) (ctx : Val)
    (h : cond tc (children.length = c) (c ≤ children.length)) :
    attempt ⟨c + cond tc 1 0, f⟩ (children ++ [Obj.v ctx])
      = f (children.take c ++ cond tc [Obj.v ctx] []) := by
  cases tc with
  | false =>
      simp only [cond] at h ⊢
      simp only [attempt, Nat.add_zero, List.append_nil]
      rw [List.take_append_of_le_length h]
  | true =>
      simp only [cond] at h ⊢
      subst h
      simp only [attempt]
      rw [List.take_append 1, List.take_length]
      rfl

/-- C7 amended, witness: a handler declaring two children plus context
receives both children and then the context. -/
theorem c7_amended_witness :
    attempt ⟨2 + cond true 1 0, countStF⟩
        ([Obj.st c7Sub1, Obj.st c7Sub2] ++ [Obj.v .vnone])
      = .ok (.int 2) :=
  (c7_amended countStF 2 true [Obj.st c7Sub1, Obj.st c7Sub2] .vnone
    rfl).trans rfl

/-- C8: the claim expects a fold with no `Statements` aggregate to fail
with the distinguished message "No semantics specified for statement
sequences." — the message `SemanticError.__init__` produces for the raw
value `"Statements"` (pydrogen.py lines 34-35).  The default
`Statements` handler instead raises
`SemanticError("Statements (Pydrogen-specific case)")` (line 369),
which misses the special case, so the surfaced message is the per-kind
shaped "No semantics specified for 'Statements (Pydrogen-specific
case)' nodes.".  This theorem evaluates the modelled code at the
failing input and shows the surfaced message differs from the
distinguished one. -/
theorem c8_statements_missing :
    interpret c8I (.Module (.cons .Pass .nil)) .dict
      = .error (.semantic (semMsg statementsRaw))
    ∧ semMsg statementsRaw
        ≠ "No semantics specified for statement sequences." :=
  ⟨rfl, by decide⟩

/-- C9: invoking the carrier obtained by applying interpretations `A`
then `B` to a callable delegates to the original callable on every
argument, regardless of the attached results. -/
theorem c9_call_delegates {α β : Type} (c : Callable α β)
    (IA IB : Interp) (nA nB : String) (FA FAB : Function α β)
    (hA : process nA IA (.plain c) = .ok FA)
    (hB : process nB IB (.wrapped FA) = .ok FAB) :
    ∀ x, FAB.call x = c.run x := by
  intro x
  simp only [process, origOf] at hA hB
  cases hiA : interpret IA c.tree .dict with
  | error e => rw [hiA] at hA; simp [Except.map] at hA
  | ok rA =>
      rw [hiA] at hA
      simp only [Except.map] at hA
      have hFA : FA = mkFunction (.plain c) nA rA := (Except.ok.inj hA).symm
      subst hFA
      cases hiB : interpret IB (mkFunction (FObj.plain c) nA rA).func.tree .dict with
      | error e => rw [hiB] at hB; simp [Except.map] at hB
      | ok rB =>
          rw [hiB] at hB
          simp only [Except.map] at hB
          have hFAB : FAB
              = mkFunction (.wrapped (mkFunction (.plain c) nA rA)) nB rB :=
            (Except.ok.inj hB).symm
          subst hFAB
          rfl

/-- C9 witness: the stacked carrier applied at `()` yields what the
original callable yields. -/
theorem c9_witness :
    (mkFunction
        (FObj.wrapped (mkFunction (FObj.plain c9Callable) "A" (.int 1)))
        "B" (.int 2)).call ()
      = c9Callable.run () :=
  c9_call_delegates c9Callable c9IA c9IB "A" "B"
    (mkFunction (FObj.plain c9Callable) "A" (.int 1))
    (mkFunction
      (FObj.wrapped (mkFunction (FObj.plain c9Callable) "A" (.int 1)))
      "B" (.int 2))
    rfl rfl ()

/-- C10: results are keyed by the interpretation's class name only
(`cls.__class__.__name__`, pydrogen.py line 58): applying two different
interpretation instances whose classes share one name leaves a single
entry under that name holding the later result — the earlier result is
overwritten, not accumulated. -/
theorem c10_same_name_overwrites {α β : Type} (c : Callable α β)
    (IA IB : Interp) (n : String) (rA rB : Val) (FA FAB : Function α β)
    (hIA : interpret IA c.tree .dict = .ok rA)
    (hIB : interpret IB c.tree .dict = .ok rB)
    (hA : process n IA (.plain c) = .ok FA)
    (hB : process n IB (.wrapped FA) = .ok FAB) :
    FA.interpretations = [(n, rA)]
      ∧ FAB.interpretations = [(n, rB)] := by
  have hFA : FA = mkFunction (.plain c) n rA := by
    simp only [process, origOf, hIA, Except.map] at hA
    exact (Except.ok.inj hA).symm
  subst hFA
  have hFAB : FAB = mkFunction (.wrapped (mkFunction (.plain c) n rA)) n rB := by
    simp only [process, origOf, mkFunction, hIB, Except.map] at hB
    exact (Except.ok.inj hB).symm
  subst hFAB
  constructor
  · rfl
  · simp [mkFunction, dinsert]

/-- C10 witness: two instances sharing the class name `S` leave a
single stored result, the later one. -/
theorem c10_witness :
    (mkFunction (FObj.plain c10Callable) "S" (.int 1)).interpretations
        = [("S", .int 1)]
    ∧ (mkFunction
        (FObj.wrapped (mkFunction (FObj.plain c10Callable) "S" (.int 1)))
        "S" (.int 2)).interpretations = [("S", .int 2)] :=
  c10_same_name_overwrites c10Callable c10IA c10IB "S" (.int 1) (.int 2)
    (mkFunction (FObj.plain c10Callable) "S" (.int 1))
    (mkFunction
      (FObj.wrapped (mkFunction (FObj.plain c10Callable) "S" (.int 1)))
      "S" (.int 2))
    rfl rfl rfl rfl

end Pydrogen
